import Mathlib

/-!
Verification of the resilient field-reconciliation layer of the mcp-nhl
server (src/src/demo.ts server portion and the src/unnamed/part_001
variant).  JSON documents are modelled by the inductive `Json`; a JS value
that may be `undefined` is modelled by `Option Json` with `none` standing
for `undefined` and `some .null` for JS `null`.  Numbers are modelled by
`Int`: every numeric value handled by the claims (wins, losses, points,
ids) is integral in the upstream API.
-/

inductive Json where
  | null : Json
  | bool : Bool → Json
  | num : Int → Json
  | str : String → Json
  | arr : List Json → Json
  | obj : List (String × Json) → Json

mutual
/-- Rendering of a value by JS string interpolation (template literals and
`String(v)`).  Arrays render as comma separated elements, plain objects as
the generic object marker. -/
def jsDisplay : Json → String
  | .null => "null"
  | .bool b => if b then "true" else "false"
  | .num n => toString n
  | .str s => s
  | .arr l => jsDisplayList l
  | .obj _ => "[object Object]"

def jsDisplayList : List Json → String
  | [] => ""
  | [x] => jsDisplay x
  | x :: y :: xs => jsDisplay x ++ "," ++ jsDisplayList (y :: xs)
end

/-- JS truthiness of a defined value. -/
def truthy : Json → Bool
  | .null => false
  | .bool b => b
  | .num n => n != 0
  | .str s => s ≠ ""
  | .arr _ => true
  | .obj _ => true

/-- JS truthiness of a possibly-undefined value (`undefined` is falsy). -/
def otruthy : Option Json → Bool
  | none => false
  | some j => truthy j

/-- Property access `j.k` on a defined value: lookup in an object, absent on
anything else. -/
def jsGet (j : Json) (k : String) : Option Json :=
  match j with
  | .obj fs => List.lookup k fs
  | _ => none

/-- Property access on a possibly-undefined receiver.  In JS an access on
`undefined`/`null` throws; in the translated code every such access is
guarded, so mapping it to `undefined` here does not change any guarded
path. -/
def jsGetO (o : Option Json) (k : String) : Option Json :=
  match o with
  | some j => jsGet j k
  | none => none

/-- Optional chaining `o?.k`: `undefined` when the receiver is
`undefined`/`null`. -/
def chainGet (o : Option Json) (k : String) : Option Json :=
  match o with
  | none => none
  | some .null => none
  | some j => jsGet j k

/-- JS `a || b` on possibly-undefined operands. -/
def jsOr (a b : Option Json) : Option Json :=
  if otruthy a then a else b

/-- JS `a && b` on possibly-undefined operands. -/
def jsAndO (a b : Option Json) : Option Json :=
  match a with
  | some j => if truthy j then b else a
  | none => none

/-- JS `a && a.k` (the guarded access used by the team parsers). -/
def jsAndGet (a : Option Json) (k : String) : Option Json :=
  match a with
  | some j => if truthy j then jsGet j k else a
  | none => none

/-- JS `x || d` where `d` is a defined default: always produces a defined
value. -/
def orV (o : Option Json) (d : Json) : Json :=
  match o with
  | some j => if truthy j then j else d
  | none => d

/-- JS `x || 0`, the numeric defaulting pattern of the source. -/
def orZero (o : Option Json) : Json :=
  orV o (.num 0)

/-- The filter of the merge step: `v !== undefined && v !== null`. -/
def present : Option Json → Bool
  | none => false
  | some .null => false
  | some _ => true

/-- Strict equality `v === s` between a possibly-undefined value and a
string literal. -/
def jsEqStr (o : Option Json) (s : String) : Bool :=
  match o with
  | some (.str x) => x = s
  | _ => false

/-- Strict equality between two possibly-undefined values, as used by
`t.teamId === playerData.teamId`.  Composite values compare by reference in
JS; two separately parsed documents are never the same reference, so
composites compare unequal here. -/
def jsStrictEq (a b : Option Json) : Bool :=
  match a, b with
  | none, none => true
  | some .null, some .null => true
  | some (.bool x), some (.bool y) => x = y
  | some (.num x), some (.num y) => x = y
  | some (.str x), some (.str y) => x = y
  | _, _ => false

/-- Iteration of a JS value with `for..of` / `.find` / `.map` in the
translated code: an array yields its elements, anything else yields
nothing.  (In JS such an operation on a non-array truthy value throws; in
every translated call site the surrounding try/catch turns that throw into
the same no-data outcome.) -/
def asArr : Option Json → List Json
  | some (.arr l) => l
  | _ => []

/-- Index access `j[i]` as used on the `teamStats` array. -/
def jsIndex (j : Json) (i : Nat) : Option Json :=
  match j with
  | .arr l => l[i]?
  | .obj fs => List.lookup (toString i) fs
  | _ => none

/-- The check `x.length > 0` on a guarded (truthy) value. -/
def jsLenGt0 : Option Json → Bool
  | some (.arr l) => decide (0 < l.length)
  | some (.str s) => decide (0 < s.length)
  | some (.obj fs) =>
      match List.lookup "length" fs with
      | some (.num n) => decide (0 < n)
      | _ => false
  | _ => false

/-- The check `x.length === 0` on a guarded (truthy) value. -/
def jsLenEq0 : Option Json → Bool
  | some (.arr l) => decide (l.length = 0)
  | some (.str s) => decide (s.length = 0)
  | some (.obj fs) =>
      match List.lookup "length" fs with
      | some (.num n) => decide (n = 0)
      | _ => false
  | _ => false

/-- Template interpolation of a possibly-undefined value. -/
def jsInterp : Option Json → String
  | none => "undefined"
  | some j => jsDisplay j

/-- Interpolation of `x || d` with a string default, the pattern
of the render lines. -/
def jsInterpOr (o : Option Json) (d : String) : String :=
  if otruthy o then jsInterp o else d

/-! ## Canonical team record and merge (src/src/demo.ts get-team) -/

/-- The `TeamResponse` shape produced by the endpoint parsers of the
`get-team` tool.  Every field is optional in the source interface; `none`
models an absent (`undefined`) field.  The source field `abbrev` is a Lean
keyword, hence the trailing underscore. -/
structure TeamRec where
  teamId : Option Json := none
  name : Option Json := none
  abbrev_ : Option Json := none
  locationName : Option Json := none
  teamName : Option Json := none
  division : Option Json := none
  conference : Option Json := none
  record : Option Json := none

/-- The empty accumulator `let teamData: TeamResponse = {}`. -/
def emptyTeam : TeamRec := {}

/-- One field of the merge step
`teamData = { ...teamData, ...Object.fromEntries(Object.entries(parsedTeam).filter(([_, v]) => v !== undefined && v !== null)) }`:
an entry of the parsed record survives the filter exactly when it is
neither `undefined` nor `null`, and a surviving entry overrides the
accumulator by the spread. -/
def mergeField (a p : Option Json) : Option Json :=
  if present p then p else a

/-- The merge step of the `get-team` endpoint loop (demo.ts lines 339-345,
identical in part_001 lines 425-431), applied field by field. -/
def mergeTeam (acc p : TeamRec) : TeamRec where
  teamId := mergeField acc.teamId p.teamId
  name := mergeField acc.name p.name
  abbrev_ := mergeField acc.abbrev_ p.abbrev_
  locationName := mergeField acc.locationName p.locationName
  teamName := mergeField acc.teamName p.teamName
  division := mergeField acc.division p.division
  conference := mergeField acc.conference p.conference
  record := mergeField acc.record p.record

/-- The completeness check of the endpoint loop:
`if (teamData.name && teamData.division && teamData.conference) break`. -/
def teamComplete (t : TeamRec) : Bool :=
  otruthy t.name && otruthy t.division && otruthy t.conference

/-- The normalization `teamAbbrev.toUpperCase().trim()` (demo.ts line 191), modelled at the
character-list level: uppercase every character, then strip leading and
trailing whitespace. -/
def normTeamCode (s : String) : String :=
  String.mk (((s.data.map Char.toUpper).dropWhile Char.isWhitespace).reverse.dropWhile
    Char.isWhitespace).reverse

def NHL_WEB_API_BASE : String := "https://api-web.nhle.com/v1"
def NHL_STATS_API_BASE : String := "https://api.nhle.com/stats/rest/en"

def rosterUrl (code : String) : String :=
  NHL_WEB_API_BASE ++ "/roster/" ++ code ++ "/current"
def clubStatsUrl (code : String) : String :=
  NHL_WEB_API_BASE ++ "/club-stats/" ++ code ++ "/now"
def teamInfoUrl : String := NHL_STATS_API_BASE ++ "/team"
def standingsNowUrl : String := NHL_WEB_API_BASE ++ "/standings/now"

/-- Parser of the Roster API endpoint (demo.ts lines 199-210). -/
def parseRoster (teamCode : String) (data : Json) : TeamRec where
  teamId := jsGet data "teamId"
  name := jsOr (jsGet data "name") (jsGet data "fullName")
  abbrev_ := some (.str teamCode)
  locationName := jsGet data "locationName"
  teamName := jsGet data "teamName"
  division := jsGet data "division"
  conference := jsGet data "conference"
  record := none

/-- The probe `data.teamStats && data.teamStats[0]` of the Club Stats parser; the
short-circuit makes the index reachable only on a truthy `teamStats`. -/
def clubStatsRow (data : Json) : Option Json :=
  match jsGet data "teamStats" with
  | some j => if truthy j then jsIndex j 0 else none
  | none => none

/-- Parser of the Club Stats API endpoint (demo.ts lines 215-231).  Note
that the `record` sub-fields are defaulted with `|| 0` already here, at
parse time. -/
def parseClubStats (teamCode : String) (data : Json) : TeamRec where
  teamId := jsOr (jsGet data "teamId") (jsGet data "id")
  name := jsOr (jsGet data "teamName") (jsGet data "name")
  abbrev_ := some (.str teamCode)
  locationName := jsGet data "locationName"
  teamName := jsOr (jsGet data "teamName") (jsGet data "name")
  division := none
  conference := none
  record :=
    match clubStatsRow data with
    | some t0 =>
        if truthy t0 then
          some (.obj [("wins", orZero (jsGet t0 "wins")),
                      ("losses", orZero (jsGet t0 "losses")),
                      ("otLosses", orZero (jsGet t0 "otLosses")),
                      ("points", orZero (jsGet t0 "points"))])
        else none
    | none => none

/-- The match predicate of the Team Info parser:
`t.triCode === teamCode || t.abbrev === teamCode || t.teamAbbrev?.default === teamCode`. -/
def teamInfoMatch (teamCode : String) (t : Json) : Bool :=
  jsEqStr (jsGet t "triCode") teamCode ||
  jsEqStr (jsGet t "abbrev") teamCode ||
  jsEqStr (chainGet (jsGet t "teamAbbrev") "default") teamCode

/-- An object literal whose entries may be `undefined`; for field access an
entry holding `undefined` is indistinguishable from a missing entry, so
such entries are dropped. -/
def objOf (l : List (String × Option Json)) : Json :=
  .obj (l.filterMap (fun e => e.2.map (fun j => (e.1, j))))

/-- Parser of the Team Info API endpoint (demo.ts lines 236-265).  On no
matching team it returns the empty record `{}`. -/
def parseTeamInfo (teamCode : String) (data : Json) : TeamRec :=
  match (asArr (jsOr (jsGet data "data") (some (.arr [])))).find? (teamInfoMatch teamCode) with
  | none => emptyTeam
  | some m =>
      { teamId := jsOr (jsGet m "id") (jsGet m "teamId")
        name := jsOr (jsGet m "name") (jsGet m "fullName")
        abbrev_ := some (.str teamCode)
        locationName := jsGet m "locationName"
        teamName := jsGet m "teamName"
        division := some (objOf
          [("name", jsOr (jsGet m "divisionName") (jsAndGet (jsGet m "division") "name")),
           ("shortName", jsOr (jsGet m "divisionAbbrev") (jsAndGet (jsGet m "division") "nameShort"))])
        conference := some (objOf
          [("name", jsOr (jsGet m "conferenceName") (jsAndGet (jsGet m "conference") "name")),
           ("shortName", jsOr (jsGet m "conferenceAbbrev") (jsAndGet (jsGet m "conference") "nameShort"))])
        record := none }

/-- The match predicate of the Standings parser:
`t.teamAbbrev?.default === teamCode || t.abbrev === teamCode || t.triCode === teamCode`. -/
def standingsMatch (teamCode : String) (t : Json) : Bool :=
  jsEqStr (chainGet (jsGet t "teamAbbrev") "default") teamCode ||
  jsEqStr (jsGet t "abbrev") teamCode ||
  jsEqStr (jsGet t "triCode") teamCode

/-- The division scan of the Standings parser: first division whose
`teamRecords || teams` list contains a matching team, together with that
team (demo.ts lines 281-294). -/
def findTeamInDivs (teamCode : String) : List Json → Option (Json × Json)
  | [] => none
  | div :: rest =>
      match (asArr (jsOr (jsGet div "teamRecords") (jsGet div "teams"))).find? (standingsMatch teamCode) with
      | some t => some (div, t)
      | none => findTeamInDivs teamCode rest

/-- The division-list probe of the Standings parser:
`data.standings?.divisionStandings || data.divisionStandings || data.records || []`. -/
def standingsDivisions (data : Json) : Option Json :=
  jsOr (jsOr (chainGet (jsGet data "standings") "divisionStandings")
             (jsGet data "divisionStandings"))
       (jsOr (jsGet data "records") (some (.arr [])))

/-- Parser of the Standings API endpoint (demo.ts lines 270-322).  The
`record` sub-fields are again defaulted with `|| 0` at parse time. -/
def parseStandings (teamCode : String) (data : Json) : TeamRec :=
  match findTeamInDivs teamCode (asArr (standingsDivisions data)) with
  | none => emptyTeam
  | some (div, f) =>
      { teamId := jsOr (jsGet f "teamId") (jsGet f "id")
        name := jsOr (jsAndGet (jsGet f "teamName") "default") (jsGet f "name")
        abbrev_ := some (.str teamCode)
        locationName := none
        teamName := none
        division := some (.obj
          [("name", orV (jsGet div "divisionName") (.str "Unknown Division")),
           ("shortName", orV (jsGet div "divisionAbbrev") (.str ""))])
        conference := some (.obj
          [("name", if jsEqStr (jsGet div "conferenceAbbrev") "E" then .str "Eastern"
                    else if jsEqStr (jsGet div "conferenceAbbrev") "W" then .str "Western"
                    else orV (jsGet div "conferenceName") (.str "Unknown")),
           ("shortName", orV (jsGet div "conferenceAbbrev") (.str ""))])
        record := some (.obj
          [("wins", orZero (jsGet f "wins")),
           ("losses", orZero (jsGet f "losses")),
           ("otLosses", orZero (jsGet f "otLosses")),
           ("points", orZero (jsGet f "points"))]) }

/-- The statically ordered endpoint list of `get-team` (demo.ts lines
195-324), each endpoint paired with its URL. -/
def getTeamEndpoints (code : String) : List (String × (Json → TeamRec)) :=
  [(rosterUrl code, parseRoster code),
   (clubStatsUrl code, parseClubStats code),
   (teamInfoUrl, parseTeamInfo code),
   (standingsNowUrl, parseStandings code)]

/-! ## The transport and the endpoint loop -/

/-- The observable outcome of one `fetch(url, { headers })` call. -/
structure HttpResponse where
  ok : Bool
  status : Nat
  /-- Here `none` models a body on which `response.json()` throws. -/
  body : Option Json

/-- Outcome of the transport: either the promise rejects (network failure)
or a response arrives. -/
inductive FetchResult where
  | networkFailure : FetchResult
  | response : HttpResponse → FetchResult

/-- The helper `makeNHLRequest` (demo.ts lines 64-81): a non-ok status throws, a
malformed body throws, and the surrounding try/catch converts every throw
into `null`. -/
def makeNHLRequest : FetchResult → Option Json
  | .networkFailure => none
  | .response r => if r.ok then r.body else none

/-- The `get-team` endpoint loop (demo.ts lines 330-358) against a
deterministic transport `env`.  Returns the final accumulator together
with the list of URLs fetched, in order.  A `null` transport result
(`if (data)`) skips merge and completeness check; a truthy parsed document
is merged and then the completeness check may break the loop.  A parser
throw inside the try/catch only appends to `errorMessages` and continues,
which on the accumulator is the same as merging the empty record. -/
def runTeamLoopE (env : String → Option Json) :
    List (String × (Json → TeamRec)) → TeamRec → TeamRec × List String
  | [], acc => (acc, [])
  | (url, p) :: rest, acc =>
      match env url with
      | none =>
          let r := runTeamLoopE env rest acc
          (r.1, url :: r.2)
      | some d =>
          if truthy d then
            let acc2 := mergeTeam acc (p d)
            if teamComplete acc2 then (acc2, [url])
            else
              let r := runTeamLoopE env rest acc2
              (r.1, url :: r.2)
          else
            let r := runTeamLoopE env rest acc
            (r.1, url :: r.2)

/-- The accumulator produced by the `get-team` endpoint loop for a given
transport and caller-supplied abbreviation. -/
def teamLoopAcc (env : String → Option Json) (teamAbbrev : String) : TeamRec :=
  (runTeamLoopE env (getTeamEndpoints (normTeamCode teamAbbrev)) emptyTeam).1

/-- The URLs fetched by the `get-team` endpoint loop. -/
def teamLoopFetched (env : String → Option Json) (teamAbbrev : String) : List String :=
  (runTeamLoopE env (getTeamEndpoints (normTeamCode teamAbbrev)) emptyTeam).2

/-- The failure text of the `get-team` NotFound branch (demo.ts lines
363-370). -/
def failText (code : String) : String :=
  "Failed to retrieve data for team: " ++ code ++
  ". The team code may be invalid or NHL API might be unavailable."

/-- The rendered `Abbreviation` line (demo.ts line 385): always the
normalized caller-supplied code. -/
def abbrevLine (code : String) : String :=
  "Abbreviation: " ++ code

/-- The render phase of `get-team` (demo.ts lines 377-410).  The
`teamFullName` conditional reproduces the source precedence: the `||` and
`&&` chain is the condition of the `?:` operator, so the name field itself
is interpolated only through `locationName`/`teamName`.  The final
`join("\\n")` of the source uses the two-character escape sequence
literally present in demo.ts. -/
def renderTeam (code : String) (t : TeamRec) (statsData : Option Json) : String :=
  let teamFullName :=
    if otruthy (jsOr t.name (jsAndO t.locationName t.teamName)) then
      jsInterp t.locationName ++ " " ++ jsInterp t.teamName
    else code ++ " (name unavailable)"
  let base :=
    ["Team: " ++ teamFullName,
     abbrevLine code,
     "Division: " ++ jsInterpOr (chainGet t.division "name") "Not available",
     "Conference: " ++ jsInterpOr (chainGet t.conference "name") "Not available"]
  let teamStats := jsGetO statsData "teamStats"
  let lines :=
    if otruthy statsData && otruthy teamStats && jsLenGt0 teamStats then
      let s0 := match teamStats with | some j => jsIndex j 0 | none => none
      base ++
        ["Stats:",
         "  Record: " ++ jsInterp (jsGetO s0 "wins") ++ "-" ++
           jsInterp (jsGetO s0 "losses") ++ "-" ++ jsInterp (jsGetO s0 "otLosses"),
         "  Points: " ++ jsInterp (jsGetO s0 "points"),
         "  Goals For: " ++ jsInterp (jsGetO s0 "goalsFor"),
         "  Goals Against: " ++ jsInterp (jsGetO s0 "goalsAgainst"),
         "  Home Record: " ++ jsInterpOr (jsOr (jsGetO s0 "homeRecord") (jsGetO s0 "homeRecordL10")) "N/A",
         "  Away Record: " ++ jsInterpOr (jsOr (jsGetO s0 "awayRecord") (jsGetO s0 "awayRecordL10")) "N/A"]
    else if otruthy t.record then
      base ++
        ["Stats:",
         "  Record: " ++ jsInterp (jsGetO t.record "wins") ++ "-" ++
           jsInterp (jsGetO t.record "losses") ++ "-" ++ jsInterp (jsGetO t.record "otLosses"),
         "  Points: " ++ jsInterp (jsGetO t.record "points")]
    else base
  String.intercalate "\\n" lines

/-- The whole `get-team` handler (demo.ts lines 190-420) against a
deterministic transport: the endpoint loop, the NotFound guard
`if (!teamData.name)`, the unconditional post-loop club-stats fetch and
the render phase.  Returns the produced text together with every URL
fetched, in order. -/
def getTeam (env : String → Option Json) (teamAbbrev : String) : String × List String :=
  let code := normTeamCode teamAbbrev
  let r := runTeamLoopE env (getTeamEndpoints code) emptyTeam
  if otruthy r.1.name then
    let statsData := env (clubStatsUrl code)
    (renderTeam code r.1 statsData, r.2 ++ [clubStatsUrl code])
  else (failText code, r.2)

/-! ## Defensive string extraction (demo.ts lines 572-578 and 1045-1050,
part_001 lines 706-713) -/

/-- The `safeString` of demo.ts: null/undefined and objects/arrays give the
caller default, strings pass through, numbers and booleans render with
`String(v)`. -/
def safeString (value : Option Json) (defaultValue : String) : String :=
  match value with
  | none => defaultValue
  | some .null => defaultValue
  | some (.str s) => s
  | some (.num n) => toString n
  | some (.bool b) => if b then "true" else "false"
  | some (.arr _) => defaultValue
  | some (.obj _) => defaultValue

/-- The `safeString` of part_001 (the localized-wrapper variant): before the
final default it unwraps `value.default` when that property is truthy
(the object branch returning `value.default` when that property is truthy),
so its result is not necessarily a string. -/
def safeStringLoc (value : Option Json) (defaultValue : String) : Json :=
  match value with
  | none => .str defaultValue
  | some .null => .str defaultValue
  | some (.str s) => .str s
  | some (.num n) => .str (toString n)
  | some (.bool b) => .str (if b then "true" else "false")
  | some j =>
      match jsGet j "default" with
      | some d => if truthy d then d else .str defaultValue
      | none => .str defaultValue

/-! ## get-skater-leaders (demo.ts lines 924-1016) -/

/-- Lowercasing with `toLowerCase()` modelled at the character-list level. -/
def strLower (s : String) : String :=
  String.mk (s.data.map Char.toLower)

/-- The category match of the web extractor:
`c.categoryName?.toLowerCase() === category.toLowerCase() || c.categoryLabel?.toLowerCase() === category.toLowerCase()`.
A non-string field has no `toLowerCase` method, which in JS throws and is
absorbed by the endpoint loop; here it simply fails to match. -/
def catMatch (category : String) (c : Json) : Bool :=
  (match jsGet c "categoryName" with
   | some (.str s) => strLower s = strLower category
   | _ => false) ||
  (match jsGet c "categoryLabel" with
   | some (.str s) => strLower s = strLower category
   | _ => false)

/-- Extractor of the primary web API endpoint (demo.ts lines 933-949). -/
def extractWeb (category : String) (data : Json) : Option Json :=
  if !truthy data then none
  else
    let cats := jsGet data "categories"
    if !otruthy cats then none
    else if jsLenEq0 cats then none
    else
      match cats with
      | some (.arr l) =>
          let catData :=
            match l.find? (catMatch category) with
            | some c => c
            | none => l.headD .null
          some (.obj [("leaders", orV (jsGet catData "leaders") (.arr [])),
                      ("categoryLabel", orV (jsGet catData "categoryLabel") (.str category)),
                      ("season", orV (jsGet data "season") (.str "current"))])
      | _ => none

/-- Extractor of the secondary stats API endpoint (demo.ts lines 955-966). -/
def extractStatsDirect (category : String) (data : Json) : Option Json :=
  if !truthy data then none
  else
    match jsGet data "data" with
    | some dd =>
        some (.obj [("leaders", dd),
                    ("categoryLabel", orV (jsGet data "description") (.str category)),
                    ("season", orV (jsGet data "season") (.str "current"))])
    | none => none

/-- Extractor of the filtered stats API endpoint (demo.ts lines 972-984). -/
def extractFiltered (category : String) (data : Json) : Option Json :=
  if !truthy data then none
  else
    match jsGet data "data" with
    | some dd =>
        some (.obj [("leaders", dd),
                    ("categoryLabel", .str category),
                    ("season", .str "2024-2025")])
    | none => none

/-- The acceptance test of the URL loop:
`extracted && extracted.leaders && extracted.leaders.length > 0`. -/
def leadersNonempty (e : Json) : Bool :=
  otruthy (jsGet e "leaders") && jsLenGt0 (jsGet e "leaders")

/-- The `get-skater-leaders` URL loop (demo.ts lines 991-1016): each source
is a pair of extractor and transport response; a `null` response or a
failed/empty extraction falls through to the next source, the first
extraction with a non-empty leaders list is the result. -/
def leadersLoop : List ((Json → Option Json) × Option Json) → Option Json
  | [] => none
  | (ext, resp) :: rest =>
      match resp with
      | none => leadersLoop rest
      | some d =>
          if truthy d then
            match ext d with
            | none => leadersLoop rest
            | some e => if leadersNonempty e then some e else leadersLoop rest
          else leadersLoop rest

/-- The concrete three-source pipeline of `get-skater-leaders` (demo.ts
lines 928-985), given the transport responses of the three URLs. -/
def runLeaders (category : String) (r1 r2 r3 : Option Json) : Option Json :=
  leadersLoop [(extractWeb category, r1),
               (extractStatsDirect category, r2),
               (extractFiltered category, r3)]

/-! ## get-player team enrichment (demo.ts lines 516-570) -/

def playerTeamUrls : List String := [standingsNowUrl, teamInfoUrl]

/-- One response of the team lookup applied to the `(teamName, teamAbbrev)`
state (demo.ts lines 534-552): the standings shape walks every division —
only the inner loop breaks, so a later division with a matching id
overwrites — and the stats shape takes the first matching row. -/
def updateTeamFromDoc (pid : Json) (d : Json) (st : Json × Json) : Json × Json :=
  let ch := chainGet (jsGet d "standings") "divisionStandings"
  if otruthy ch then
    (asArr ch).foldl
      (fun st div =>
        match (asArr (jsOr (jsGet div "teamRecords") (some (.arr [])))).find?
            (fun t => jsStrictEq (jsGet t "teamId") (some pid)) with
        | some t =>
            (orV (chainGet (jsGet t "teamName") "default") (.str "Unknown Team"),
             orV (chainGet (jsGet t "teamAbbrev") "default") (.str ""))
        | none => st) st
  else if otruthy (jsGet d "data") then
    match (asArr (jsGet d "data")).find?
        (fun t => jsStrictEq (jsGet t "id") (some pid)) with
    | some t =>
        (orV (jsOr (jsGet t "name") (jsGet t "fullName")) (.str "Unknown Team"),
         orV (jsOr (jsGet t "triCode") (jsGet t "abbrev")) (.str ""))
    | none => st
  else st

/-- The break condition of the lookup loop: the state name differs from the initial value, that is the comparison with the Unknown Team sentinel is false. -/
def notUnknown (tn : Json) : Bool :=
  !(jsStrictEq (some tn) (some (.str "Unknown Team")))

/-- The team lookup URL loop of `get-player` (demo.ts lines 528-555):
breaks as soon as the team name is known. -/
def playerTeamLoop (pid : Json) (env : String → Option Json) :
    List String → (Json × Json) → (Json × Json) × List String
  | [], st => (st, [])
  | url :: rest, st =>
      match env url with
      | none =>
          let r := playerTeamLoop pid env rest st
          (r.1, url :: r.2)
      | some d =>
          if truthy d then
            let st2 := updateTeamFromDoc pid d st
            if notUnknown st2.1 then (st2, [url])
            else
              let r := playerTeamLoop pid env rest st2
              (r.1, url :: r.2)
          else
            let r := playerTeamLoop pid env rest st
            (r.1, url :: r.2)

/-- The whole team enrichment of `get-player` (demo.ts lines 516-570):
entered only when `playerData.teamId` is truthy; the roster fallback is
fetched only when an abbreviation was found while the name is still
unknown.  Returns the `(teamName, teamAbbrev)` state and every URL
fetched. -/
def playerTeamEnrichment (playerData : Json) (env : String → Option Json) :
    (Json × Json) × List String :=
  let st0 : Json × Json := (.str "Unknown Team", .str "")
  match jsGet playerData "teamId" with
  | some pid =>
      if truthy pid then
        let r := playerTeamLoop pid env playerTeamUrls st0
        let st := r.1
        if truthy st.2 && !(notUnknown st.1) then
          let rUrl := NHL_WEB_API_BASE ++ "/roster/" ++ jsDisplay st.2 ++ "/current"
          match env rUrl with
          | some td =>
              if truthy td then
                let cond := otruthy (jsOr (jsGet td "name")
                  (jsAndO (jsGet td "locationName") (jsGet td "teamName")))
                let tn2 : Json :=
                  if cond then
                    .str (jsInterp (jsGet td "locationName") ++ " " ++
                          jsInterp (jsGet td "teamName"))
                  else st.2
                ((tn2, st.2), r.2 ++ [rUrl])
              else (st, r.2 ++ [rUrl])
          | none => (st, r.2 ++ [rUrl])
        else (st, r.2)
      else (st0, [])
  | none => (st0, [])

/-! ## get-current-standings formatting (part_001 lines 284-299) -/

/-- JS `ToPrimitive` for the values reachable in the standings arithmetic:
arrays and objects become strings, primitives stay. -/
def toPrim : Json → Json
  | .arr l => .str (jsDisplayList l)
  | .obj _ => .str "[object Object]"
  | j => j

/-- JS `ToNumber` on the primitives occurring in the standings arithmetic
(`null`, booleans, numbers).  Strings parse numerically in JS; the
standings fields concerned are declared numeric, so the claims are stated
under that shape. -/
def jsToNumber : Json → Int
  | .null => 0
  | .bool b => if b then 1 else 0
  | .num n => n
  | _ => 0

/-- JS `+`: string concatenation if either primitive operand is a string,
numeric addition otherwise. -/
def jsAdd (a b : Json) : Json :=
  match toPrim a, toPrim b with
  | .str s, y => .str (s ++ jsDisplay y)
  | x, .str s => .str (jsDisplay x ++ s)
  | x, y => .num (jsToNumber x + jsToNumber y)

/-- The GP value of a standings row (part_001 line 294):
`(team.wins || 0) + (team.losses || 0) + (team.otLosses || 0)` — the
upstream `gamesPlayed` field is not consulted. -/
def standingsGP (team : Json) : Json :=
  jsAdd (jsAdd (orZero (jsGet team "wins")) (orZero (jsGet team "losses")))
        (orZero (jsGet team "otLosses"))

/-- The sort key of the comparator
`(b.points || 0) - (a.points || 0)` (part_001 line 290). -/
def ptsKey (t : Json) : Int :=
  jsToNumber (toPrim (orZero (jsGet t "points")))

/-- The sort `teams.sort((a, b) => (b.points || 0) - (a.points || 0))`: a stable
sort placing `a` before `b` exactly when the comparator is non-positive,
that is when `ptsKey b ≤ ptsKey a`. -/
def sortTeamsByPoints (ts : List Json) : List Json :=
  ts.mergeSort (fun a b => decide (ptsKey b ≤ ptsKey a))

/-- One rendered standings row (part_001 lines 293-297). -/
def renderStandingsRow (team : Json) : String :=
  jsDisplay (orV (chainGet (jsGet team "teamName") "default") (.str "Unknown")) ++ " | " ++
  jsDisplay (standingsGP team) ++ " | " ++
  jsDisplay (orZero (jsGet team "wins")) ++ " | " ++
  jsDisplay (orZero (jsGet team "losses")) ++ " | " ++
  jsDisplay (orZero (jsGet team "otLosses")) ++ " | " ++
  jsDisplay (orZero (jsGet team "points")) ++ " | " ++
  jsDisplay (orZero (jsGet team "goalsFor")) ++ " | " ++
  jsDisplay (orZero (jsGet team "goalAgainst"))

/-- The rendered rows of one division: the division teams sorted by points
descending, one row each (part_001 lines 289-298). -/
def renderDivisionRows (teams : List Json) : List String :=
  (sortTeamsByPoints teams).map renderStandingsRow

/-! ## Shared lemmas -/

lemma mergeField_present (a p : Option Json) (h : present a = true) :
    present (mergeField a p) = true := by
  unfold mergeField
  by_cases hp : present p = true
  · simp [hp]
  · simp [Bool.not_eq_true] at hp
    simp [hp, h]

lemma foldl_mergeTeam_present (f : TeamRec → Option Json)
    (hf : ∀ acc p, f (mergeTeam acc p) = mergeField (f acc) (f p)) :
    ∀ (ps : List TeamRec) (acc : TeamRec),
      present (f acc) = true → present (f (ps.foldl mergeTeam acc)) = true := by
  intro ps
  induction ps with
  | nil => intro acc h; exact h
  | cons p ps ih =>
      intro acc h
      simpa using ih (mergeTeam acc p) (by rw [hf]; exact mergeField_present _ _ h)

lemma teamComplete_name (t : TeamRec) (h : teamComplete t = true) :
    otruthy t.name = true := by
  simp [teamComplete, Bool.and_eq_true] at h
  exact h.1.1

lemma loop_exhaust_or_complete (env : String → Option Json) :
    ∀ (l : List (String × (Json → TeamRec))) (acc : TeamRec),
      (runTeamLoopE env l acc).2 = l.map Prod.fst ∨
      teamComplete (runTeamLoopE env l acc).1 = true := by
  intro l
  induction l with
  | nil => intro acc; left; rfl
  | cons hd tl ih =>
      intro acc
      obtain ⟨url, p⟩ := hd
      simp only [runTeamLoopE]
      cases h : env url with
      | none =>
          rcases ih acc with h1 | h1
          · left; simp [h1]
          · right; simpa using h1
      | some d =>
          by_cases ht : truthy d = true
          · simp only [ht, if_true]
            by_cases hc : teamComplete (mergeTeam acc (p d)) = true
            · right; simp [hc]
            · simp only [Bool.not_eq_true] at hc
              simp only [hc, if_false]
              rcases ih (mergeTeam acc (p d)) with h1 | h1
              · left; simp [h1]
              · right; simpa using h1
          · simp only [Bool.not_eq_true] at ht
            simp only [ht, if_false]
            rcases ih acc with h1 | h1
            · left; simp [h1]
            · right; simpa using h1

/-! ## Claim C1: the merge rule -/

/-- Transport for the C1 counterexample: the Roster API answers with a
name only (the accumulator stays incomplete, so the loop continues), the
Club Stats API answers with a different name. -/
def envC1 : String → Option Json := fun url =>
  if url = rosterUrl "TOR" then some (.obj [("name", .str "Name A")])
  else if url = clubStatsUrl "TOR" then some (.obj [("teamName", .str "Name B")])
  else none

/-- C1 is false on the code: the spread
`teamData = { ...teamData, ...filtered(parsedTeam) }` lets a later
endpoint overwrite a non-empty field set by an earlier one.  After the
Roster API the accumulated name is "Name A"; after the full loop the Club
Stats value "Name B" has replaced it. -/
theorem get_team_merge_regression_counterexample :
    (runTeamLoopE envC1 [(rosterUrl "TOR", parseRoster "TOR")] emptyTeam).1.name
      = some (.str "Name A") ∧
    (teamLoopAcc envC1 "TOR").name = some (.str "Name B") := by
  constructor <;> rfl

/-- C1 amended: the merge never clears a field — an absent or null entry of
the later parsed record is filtered out and the accumulator value (once
present, present after any sequence of merges) survives — but a present
entry of the later record overwrites the accumulator value:
last-writer-wins per field among present values, not first-writer-wins. -/
theorem get_team_merge_no_clear_last_writer_wins (acc p : TeamRec) (ps : List TeamRec) :
    (present p.name = false → (mergeTeam acc p).name = acc.name) ∧
    (present p.name = true → (mergeTeam acc p).name = p.name) ∧
    (present acc.name = true → present ((ps.foldl mergeTeam acc).name) = true) ∧
    (present p.division = false → (mergeTeam acc p).division = acc.division) ∧
    (present p.division = true → (mergeTeam acc p).division = p.division) ∧
    (present acc.division = true → present ((ps.foldl mergeTeam acc).division) = true) ∧
    (present p.conference = false → (mergeTeam acc p).conference = acc.conference) ∧
    (present p.conference = true → (mergeTeam acc p).conference = p.conference) ∧
    (present acc.conference = true → present ((ps.foldl mergeTeam acc).conference) = true) := by
  refine ⟨?_, ?_, ?_, ?_, ?_, ?_, ?_, ?_, ?_⟩
  · intro h; simp [mergeTeam, mergeField, h]
  · intro h; simp [mergeTeam, mergeField, h]
  · exact foldl_mergeTeam_present (fun t => t.name) (fun _ _ => rfl) ps acc
  · intro h; simp [mergeTeam, mergeField, h]
  · intro h; simp [mergeTeam, mergeField, h]
  · exact foldl_mergeTeam_present (fun t => t.division) (fun _ _ => rfl) ps acc
  · intro h; simp [mergeTeam, mergeField, h]
  · intro h; simp [mergeTeam, mergeField, h]
  · exact foldl_mergeTeam_present (fun t => t.conference) (fun _ _ => rfl) ps acc

def teamNameA : TeamRec := { emptyTeam with name := some (.str "Name A") }
def teamNameB : TeamRec := { emptyTeam with name := some (.str "Name B") }

/-- Witness for the amended C1 at concrete records. -/
theorem get_team_merge_no_clear_last_writer_wins_witness :
    (mergeTeam teamNameA teamNameB).name = teamNameB.name ∧
    present (([teamNameB].foldl mergeTeam teamNameA).name) = true ∧
    (mergeTeam teamNameA emptyTeam).name = teamNameA.name :=
  ⟨(get_team_merge_no_clear_last_writer_wins teamNameA teamNameB []).2.1 rfl,
   (get_team_merge_no_clear_last_writer_wins teamNameA teamNameB [teamNameB]).2.2.1 rfl,
   (get_team_merge_no_clear_last_writer_wins teamNameA emptyTeam []).1 rfl⟩

/-! ## Claim C2: short-circuit on completeness -/

/-- C2: in the `get-team` endpoint loop, the completeness predicate is
evaluated on the accumulator right after the merge of a successfully
fetched and parsed endpoint, and when it holds the loop stops: only that
endpoint of the remaining list is fetched, whatever endpoints follow. -/
theorem get_team_short_circuit (env : String → Option Json) (url : String)
    (p : Json → TeamRec) (rest : List (String × (Json → TeamRec)))
    (acc : TeamRec) (d : Json)
    (h1 : env url = some d) (h2 : truthy d = true)
    (h3 : teamComplete (mergeTeam acc (p d)) = true) :
    runTeamLoopE env ((url, p) :: rest) acc = (mergeTeam acc (p d), [url]) := by
  simp only [runTeamLoopE, h1, h2, h3, if_true]

/-- Transport for the C2 witness: the first endpoint alone yields a
complete record. -/
def envC2 : String → Option Json := fun url =>
  if url = rosterUrl "TOR" then
    some (.obj [("name", .str "Toronto Maple Leafs"),
                ("division", .obj [("name", .str "Atlantic")]),
                ("conference", .obj [("name", .str "Eastern")])])
  else none

def rosterDocC2 : Json :=
  .obj [("name", .str "Toronto Maple Leafs"),
        ("division", .obj [("name", .str "Atlantic")]),
        ("conference", .obj [("name", .str "Eastern")])]

/-- Witness for C2 on the real endpoint list of `get-team`: with a complete
Roster API answer only the roster URL is fetched. -/
theorem get_team_short_circuit_witness :
    runTeamLoopE envC2 (getTeamEndpoints "TOR") emptyTeam
      = (mergeTeam emptyTeam (parseRoster "TOR" rosterDocC2), [rosterUrl "TOR"]) :=
  get_team_short_circuit envC2 (rosterUrl "TOR") (parseRoster "TOR")
    [(clubStatsUrl "TOR", parseClubStats "TOR"),
     (teamInfoUrl, parseTeamInfo "TOR"),
     (standingsNowUrl, parseStandings "TOR")]
    emptyTeam rosterDocC2 rfl rfl rfl

/-! ## Claim C3: NotFound on exhaustion -/

/-- C3: when the accumulator has no truthy (non-empty) name after the
endpoint loop, `get-team` returns the descriptive failure text and the
loop has fetched every configured endpoint; when a name is present the
returned text is the render of the possibly partial accumulator.  Both
branches produce a total string value — no exception and no raw upstream
error. -/
theorem get_team_notfound_on_exhaustion (env : String → Option Json) (ta : String) :
    (otruthy (teamLoopAcc env ta).name = false →
       (getTeam env ta).1 = failText (normTeamCode ta) ∧
       teamLoopFetched env ta = (getTeamEndpoints (normTeamCode ta)).map Prod.fst) ∧
    (otruthy (teamLoopAcc env ta).name = true →
       (getTeam env ta).1 =
         renderTeam (normTeamCode ta) (teamLoopAcc env ta)
           (env (clubStatsUrl (normTeamCode ta)))) := by
  constructor
  · intro h
    constructor
    · simp only [getTeam, teamLoopAcc] at *
      simp [h]
    · rcases loop_exhaust_or_complete env (getTeamEndpoints (normTeamCode ta)) emptyTeam with h1 | h1
      · exact h1
      · exact absurd (teamComplete_name _ h1) (by simp [teamLoopAcc] at h; simp [h])
  · intro h
    simp only [getTeam, teamLoopAcc] at *
    simp [h]

def envNone : String → Option Json := fun _ => none

/-- Witness for C3: with a transport on which every fetch fails, the
handler returns the failure text after attempting all four endpoints. -/
theorem get_team_notfound_on_exhaustion_witness :
    (getTeam envNone "TOR").1 = failText (normTeamCode "TOR") ∧
    teamLoopFetched envNone "TOR" = (getTeamEndpoints (normTeamCode "TOR")).map Prod.fst :=
  (get_team_notfound_on_exhaustion envNone "TOR").1 rfl

/-! ## Claim C4: per-source failures are non-fatal -/

/-- C4: `makeNHLRequest` yields `null` on a network failure, a non-2xx
status and a malformed body alike — no exception escapes; a `null`
transport answer makes the endpoint loop proceed to the remaining sources
with the accumulator unchanged; and the query-level failure branch implies
every configured source was attempted.  (The per-source failure is
recorded by console logging, an effect outside this embedding.) -/
theorem fetch_failures_nonfatal :
    (makeNHLRequest .networkFailure = none) ∧
    (∀ r : HttpResponse, r.ok = false → makeNHLRequest (.response r) = none) ∧
    (∀ r : HttpResponse, r.body = none → makeNHLRequest (.response r) = none) ∧
    (∀ (env : String → Option Json) url p rest (acc : TeamRec), env url = none →
       runTeamLoopE env ((url, p) :: rest) acc =
         ((runTeamLoopE env rest acc).1, url :: (runTeamLoopE env rest acc).2)) ∧
    (∀ (env : String → Option Json) (ta : String),
       otruthy (teamLoopAcc env ta).name = false →
       teamLoopFetched env ta = (getTeamEndpoints (normTeamCode ta)).map Prod.fst) := by
  refine ⟨rfl, ?_, ?_, ?_, ?_⟩
  · intro r h; simp [makeNHLRequest, h]
  · intro r h; cases hok : r.ok <;> simp [makeNHLRequest, hok, h]
  · intro env url p rest acc h
    simp only [runTeamLoopE, h]
  · intro env ta h
    rcases loop_exhaust_or_complete env (getTeamEndpoints (normTeamCode ta)) emptyTeam with h1 | h1
    · exact h1
    · exact absurd (teamComplete_name _ h1) (by simp [teamLoopAcc] at h; simp [h])

/-- Witness for C4 at concrete failures: a 404 response, a malformed body,
a network failure in the loop, and total exhaustion. -/
theorem fetch_failures_nonfatal_witness :
    makeNHLRequest (.response ⟨false, 404, some .null⟩) = none ∧
    makeNHLRequest (.response ⟨true, 200, none⟩) = none ∧
    runTeamLoopE envNone ((rosterUrl "TOR", parseRoster "TOR") :: []) emptyTeam =
      ((runTeamLoopE envNone [] emptyTeam).1,
       rosterUrl "TOR" :: (runTeamLoopE envNone [] emptyTeam).2) ∧
    teamLoopFetched envNone "TOR" = (getTeamEndpoints (normTeamCode "TOR")).map Prod.fst :=
  ⟨fetch_failures_nonfatal.2.1 ⟨false, 404, some .null⟩ rfl,
   fetch_failures_nonfatal.2.2.1 ⟨true, 200, none⟩ rfl,
   fetch_failures_nonfatal.2.2.2.1 envNone (rosterUrl "TOR") (parseRoster "TOR") [] emptyTeam rfl,
   fetch_failures_nonfatal.2.2.2.2 envNone "TOR" rfl⟩

/-! ## Claim C5: no silent zeros during merge -/

def zerosRecord : Json :=
  .obj [("wins", .num 0), ("losses", .num 0), ("otLosses", .num 0), ("points", .num 0)]

/-- C5 is false on the code: both the Club Stats parser and the Standings
parser build the `record` sub-object with `wins: x.wins || 0` and friends,
so a structurally absent numeric stat is replaced by an explicit `0`
already at parse time, before any merge — not at render time. -/
theorem parse_silent_zero_counterexample :
    (parseClubStats "TOR" (.obj [("teamStats", .arr [.obj []])])).record
      = some zerosRecord ∧
    (parseStandings "TOR"
        (.obj [("records",
          .arr [.obj [("teamRecords", .arr [.obj [("abbrev", .str "TOR")]])]])])).record
      = some zerosRecord := by
  constructor <;> rfl

/-- C5 amended: a structurally absent top-level numeric field (`teamId`)
stays absent after parsing, but the `record` sub-fields are defaulted to
`0` at parse time whenever the stats row exists; the completeness
predicate reads only name, division and conference, so an injected zero
can never influence it. -/
theorem parse_zero_default_policy :
    (∀ code data, jsGet data "teamId" = none → jsGet data "id" = none →
       (parseClubStats code data).teamId = none) ∧
    (∀ code data t0, clubStatsRow data = some t0 → truthy t0 = true →
       jsGet t0 "wins" = none →
       jsGetO (parseClubStats code data).record "wins" = some (.num 0)) ∧
    (∀ t₁ t₂ : TeamRec, t₁.name = t₂.name → t₁.division = t₂.division →
       t₁.conference = t₂.conference → teamComplete t₁ = teamComplete t₂) := by
  refine ⟨?_, ?_, ?_⟩
  · intro code data h1 h2
    simp [parseClubStats, jsOr, h1, h2, otruthy]
  · intro code data t0 h1 h2 h3
    have hrec : (parseClubStats code data).record =
        some (.obj [("wins", orZero (jsGet t0 "wins")),
                    ("losses", orZero (jsGet t0 "losses")),
                    ("otLosses", orZero (jsGet t0 "otLosses")),
                    ("points", orZero (jsGet t0 "points"))]) := by
      simp [parseClubStats, h1, h2]
    rw [hrec, h3]
    rfl
  · intro t₁ t₂ h1 h2 h3
    simp [teamComplete, h1, h2, h3]

def clubStatsDocC5 : Json := .obj [("teamStats", .arr [.obj []])]

/-- Witness for the amended C5 at a concrete Club Stats response whose
stats row exists but carries no numeric fields. -/
theorem parse_zero_default_policy_witness :
    (parseClubStats "TOR" clubStatsDocC5).teamId = none ∧
    jsGetO (parseClubStats "TOR" clubStatsDocC5).record "wins" = some (.num 0) ∧
    teamComplete { emptyTeam with record := some zerosRecord }
      = teamComplete emptyTeam :=
  ⟨parse_zero_default_policy.1 "TOR" clubStatsDocC5 rfl rfl,
   parse_zero_default_policy.2.1 "TOR" clubStatsDocC5 (.obj []) rfl rfl rfl,
   parse_zero_default_policy.2.2 { emptyTeam with record := some zerosRecord }
     emptyTeam rfl rfl rfl⟩

/-! ## Claim C6: empty collections count as absent -/

/-- C6: in the `get-skater-leaders` URL loop, a source whose extraction
yields an empty leaders list is treated as having produced no data — the
loop falls through to the remaining sources exactly as if the source had
answered nothing — and a source whose extraction yields a non-empty
leaders list becomes the final result, so the result is the first source
in priority order with non-empty extracted leaders. -/
theorem leaders_empty_falls_through (ext : Json → Option Json) (d : Json)
    (rest : List ((Json → Option Json) × Option Json)) :
    (∀ e, truthy d = true → ext d = some e → jsGet e "leaders" = some (.arr []) →
       leadersLoop ((ext, some d) :: rest) = leadersLoop rest) ∧
    (∀ e l, truthy d = true → ext d = some e → jsGet e "leaders" = some (.arr l) →
       l ≠ [] → leadersLoop ((ext, some d) :: rest) = some e) := by
  constructor
  · intro e hd he hl
    have hne : leadersNonempty e = false := by
      simp [leadersNonempty, hl, otruthy, truthy, jsLenGt0]
    simp [leadersLoop, hd, he, hne]
  · intro e l hd he hl hlne
    have hok : leadersNonempty e = true := by
      simp [leadersNonempty, hl, otruthy, truthy, jsLenGt0, List.length_pos, hlne]
    simp [leadersLoop, hd, he, hok]

/-- Web API response of the C6 witness (spec scenario 3): the goals
category exists but its leaders list is empty. -/
def webEmptyDoc : Json :=
  .obj [("categories",
    .arr [.obj [("categoryName", .str "goals"), ("leaders", .arr [])]])]

def statsRows : List Json :=
  [.obj [("skaterFullName", .str "Auston Matthews"), ("goals", .num 5)],
   .obj [("skaterFullName", .str "Leon Draisaitl"), ("goals", .num 4)]]

/-- Stats API response of the C6 witness: a non-empty data array. -/
def statsLeadersDoc : Json := .obj [("data", .arr statsRows)]

def webEmptyExtract : Json :=
  .obj [("leaders", .arr []), ("categoryLabel", .str "goals"),
        ("season", .str "current")]

def statsLeadersExtract : Json :=
  .obj [("leaders", .arr statsRows), ("categoryLabel", .str "goals"),
        ("season", .str "current")]

/-- Witness for C6 on the real three-source pipeline: source 1 extracts an
empty list and is skipped, source 2 extracts two rows and is the result. -/
theorem leaders_empty_falls_through_witness :
    runLeaders "goals" (some webEmptyDoc) (some statsLeadersDoc) none
      = some statsLeadersExtract := by
  have h1 := (leaders_empty_falls_through (extractWeb "goals") webEmptyDoc
    [(extractStatsDirect "goals", some statsLeadersDoc),
     (extractFiltered "goals", none)]).1 webEmptyExtract rfl rfl rfl
  have h2 := (leaders_empty_falls_through (extractStatsDirect "goals") statsLeadersDoc
    [(extractFiltered "goals", none)]).2 statsLeadersExtract statsRows rfl rfl rfl
    (by simp [statsRows])
  rw [runLeaders, h1, h2]

/-! ## Claim C7: absence safety of safeString -/

/-- C7 is false on the localized-wrapper variant of `safeString` cited by
the claim: for an object whose `default` property is truthy it returns
that property — not the caller-supplied default — and when the property is
itself an object the returned value is not even a string. -/
theorem safe_string_counterexample :
    safeStringLoc (some (.obj [("default", .str "Toronto")])) "N/A" = .str "Toronto" ∧
    "Toronto" ≠ "N/A" ∧
    safeStringLoc (some (.obj [("default", .obj [("x", .num 1)])])) "N/A"
      = .obj [("x", .num 1)] := by
  refine ⟨rfl, by decide, rfl⟩

/-- C7 amended: the demo variant of `safeString` is total and returns the
string itself, the standard rendering of numbers and booleans, and the
caller default for null/undefined and for every object or array — never a
generic placeholder; the localized-wrapper variant behaves the same except
that an object with a truthy `default` property is unwrapped to that
property, and falls back to the caller default otherwise. -/
theorem safe_string_amended (d : String) :
    (safeString none d = d) ∧
    (safeString (some .null) d = d) ∧
    (∀ s, safeString (some (.str s)) d = s) ∧
    (∀ n, safeString (some (.num n)) d = toString n) ∧
    (∀ b, safeString (some (.bool b)) d = (if b then "true" else "false")) ∧
    (∀ l, safeString (some (.arr l)) d = d) ∧
    (∀ fs, safeString (some (.obj fs)) d = d) ∧
    (∀ fs j, List.lookup "default" fs = some j → truthy j = true →
       safeStringLoc (some (.obj fs)) d = j) ∧
    (∀ fs, otruthy (List.lookup "default" fs) = false →
       safeStringLoc (some (.obj fs)) d = .str d) := by
  refine ⟨rfl, rfl, fun _ => rfl, fun _ => rfl, fun _ => rfl, fun _ => rfl, fun _ => rfl,
    ?_, ?_⟩
  · intro fs j h ht
    simp [safeStringLoc, jsGet, h, ht]
  · intro fs h
    cases hl : List.lookup "default" fs with
    | none => simp [safeStringLoc, jsGet, hl]
    | some j =>
        rw [hl] at h
        simp only [otruthy] at h
        simp [safeStringLoc, jsGet, hl, h]

/-- Witness for the amended C7 at concrete inputs, including a wrapper
object and a plain object. -/
theorem safe_string_amended_witness :
    safeStringLoc (some (.obj [("default", .str "TOR")])) "N/A" = .str "TOR" ∧
    safeStringLoc (some (.obj [("x", .num 1)])) "N/A" = .str "N/A" ∧
    safeString (some (.arr [])) "N/A" = "N/A" :=
  ⟨(safe_string_amended "N/A").2.2.2.2.2.2.2.1 [("default", .str "TOR")] (.str "TOR") rfl rfl,
   (safe_string_amended "N/A").2.2.2.2.2.2.2.2 [("x", .num 1)] rfl,
   (safe_string_amended "N/A").2.2.2.2.2.1 []⟩

/-! ## Claim C8: caller identity is canonical -/

/-- C8: for every endpoint parser of `get-team` the `abbrev` field of the
parsed partial record is the normalized caller-supplied team code whenever
it is set at all (the two directory-style parsers return the empty record
when no row matches), and the rendered Abbreviation line is built from
that same normalized code — no upstream value ever replaces it. -/
theorem caller_code_canonical (ta : String) (data : Json) :
    (parseRoster (normTeamCode ta) data).abbrev_ = some (.str (normTeamCode ta)) ∧
    (parseClubStats (normTeamCode ta) data).abbrev_ = some (.str (normTeamCode ta)) ∧
    ((parseTeamInfo (normTeamCode ta) data).abbrev_ = none ∨
     (parseTeamInfo (normTeamCode ta) data).abbrev_ = some (.str (normTeamCode ta))) ∧
    ((parseStandings (normTeamCode ta) data).abbrev_ = none ∨
     (parseStandings (normTeamCode ta) data).abbrev_ = some (.str (normTeamCode ta))) ∧
    abbrevLine (normTeamCode ta) = "Abbreviation: " ++ normTeamCode ta := by
  refine ⟨rfl, rfl, ?_, ?_, rfl⟩
  · unfold parseTeamInfo
    split
    · left; rfl
    · right; rfl
  · unfold parseStandings
    split
    · left; rfl
    · right; rfl

/-! ## Claim C9: enrichment only when needed -/

/-- Transport for the C9 counterexample: only the Club Stats endpoint
answers, with both a name and a stats row, so the loop accumulator already
holds a present `record` when the loop ends. -/
def envC9 : String → Option Json := fun url =>
  if url = clubStatsUrl "TOR" then
    some (.obj [("teamName", .str "Maple Leafs"),
                ("teamStats", .arr [.obj [("wins", .num 5)]])])
  else none

/-- C9 is false on the code for `get-team`: the post-loop club-stats fetch
is issued unconditionally once a name is present — here it is fetched (the
final URL of the fetch trace) even though the accumulator record field it
would fill is already present. -/
theorem enrichment_unconditional_counterexample :
    present (teamLoopAcc envC9 "TOR").record = true ∧
    (getTeam envC9 "TOR").2 =
      [rosterUrl "TOR", clubStatsUrl "TOR", teamInfoUrl, standingsNowUrl,
       clubStatsUrl "TOR"] := by
  constructor <;> rfl

/-- C9 amended: every enrichment fetch is issued only after the primary
resolution of its query succeeds; the `get-team` club-stats fetch is then
issued unconditionally, even when the record field is already filled,
while the `get-player` team lookup is issued only when the resolved player
has a truthy `teamId`, stops at the first URL that yields a team name, and
issues the roster fallback fetch only when an abbreviation was found while
the name is still unknown. -/
theorem enrichment_gating (env : String → Option Json) (ta : String) (pd : Json) :
    (otruthy (teamLoopAcc env ta).name = false →
       (getTeam env ta).2 = teamLoopFetched env ta) ∧
    (otruthy (teamLoopAcc env ta).name = true →
       (getTeam env ta).2 = teamLoopFetched env ta ++ [clubStatsUrl (normTeamCode ta)]) ∧
    (otruthy (jsGet pd "teamId") = false → (playerTeamEnrichment pd env).2 = []) ∧
    (∀ pid d st, env standingsNowUrl = some d → truthy d = true →
       notUnknown (updateTeamFromDoc pid d st).1 = true →
       playerTeamLoop pid env playerTeamUrls st
         = (updateTeamFromDoc pid d st, [standingsNowUrl])) ∧
    (∀ pid, jsGet pd "teamId" = some pid → truthy pid = true →
       (truthy (playerTeamLoop pid env playerTeamUrls (.str "Unknown Team", .str "")).1.2 &&
         !(notUnknown (playerTeamLoop pid env playerTeamUrls
             (.str "Unknown Team", .str "")).1.1)) = false →
       (playerTeamEnrichment pd env).2
         = (playerTeamLoop pid env playerTeamUrls (.str "Unknown Team", .str "")).2) := by
  refine ⟨?_, ?_, ?_, ?_, ?_⟩
  · intro h
    simp only [getTeam, teamLoopAcc, teamLoopFetched] at *
    simp [h]
  · intro h
    simp only [getTeam, teamLoopAcc, teamLoopFetched] at *
    simp [h]
  · intro h
    cases hp : jsGet pd "teamId" with
    | none => simp [playerTeamEnrichment, hp]
    | some pid =>
        rw [hp] at h
        simp only [otruthy] at h
        simp [playerTeamEnrichment, hp, h]
  · intro pid d st h1 h2 h3
    simp only [playerTeamUrls, playerTeamLoop, h1, h2, h3, if_true]
  · intro pid hp ht hcond
    simp [playerTeamEnrichment, hp, ht, hcond]

/-- Witness for the amended C9: the club-stats enrichment is issued on the
successful envC9 query, and no player enrichment fetch is issued for a
player record without a teamId. -/
theorem enrichment_gating_witness :
    (getTeam envC9 "TOR").2
      = teamLoopFetched envC9 "TOR" ++ [clubStatsUrl (normTeamCode "TOR")] ∧
    (playerTeamEnrichment (.obj []) envC9).2 = [] :=
  ⟨(enrichment_gating envC9 "TOR" (.obj [])).2.1 rfl,
   (enrichment_gating envC9 "TOR" (.obj [])).2.2.1 rfl⟩

/-! ## Claim C10: get-current-standings GP column and row order -/

/-- The shape of a numeric-or-structurally-absent field, the declared type
of the `StandingsRecord` counters. -/
def numOrAbsent (o : Option Json) : Prop :=
  o = none ∨ o = some .null ∨ ∃ n : Int, o = some (.num n)

/-- The integer a numeric-or-absent field contributes after `|| 0`. -/
def toIntD0 : Option Json → Int
  | some (.num n) => n
  | _ => 0

lemma orZero_num (o : Option Json) (h : numOrAbsent o) :
    orZero o = .num (toIntD0 o) := by
  rcases h with h | h | ⟨n, h⟩ <;> subst h
  · rfl
  · rfl
  · by_cases hn : n = 0
    · subst hn; rfl
    · simp [orZero, orV, truthy, toIntD0, hn]

/-- C10: in `get-current-standings` the GP value of a rendered row is the
sum `wins + losses + otLosses` with absent components contributing `0`
(the upstream `gamesPlayed` field is never consulted: the GP value depends
only on those three fields), and the rows of a division are rendered from
the team list sorted with non-increasing `points || 0`. -/
theorem standings_gp_and_order (t t₁ t₂ : Json) (ts : List Json) :
    (numOrAbsent (jsGet t "wins") → numOrAbsent (jsGet t "losses") →
     numOrAbsent (jsGet t "otLosses") →
       standingsGP t = .num (toIntD0 (jsGet t "wins") + toIntD0 (jsGet t "losses")
         + toIntD0 (jsGet t "otLosses"))) ∧
    (jsGet t₁ "wins" = jsGet t₂ "wins" → jsGet t₁ "losses" = jsGet t₂ "losses" →
     jsGet t₁ "otLosses" = jsGet t₂ "otLosses" →
       standingsGP t₁ = standingsGP t₂) ∧
    (List.Pairwise (fun a b => ptsKey b ≤ ptsKey a) (sortTeamsByPoints ts) ∧
     renderDivisionRows ts = (sortTeamsByPoints ts).map renderStandingsRow) := by
  refine ⟨?_, ?_, ?_, rfl⟩
  · intro hw hl ho
    rw [standingsGP, orZero_num _ hw, orZero_num _ hl, orZero_num _ ho]
    rfl
  · intro hw hl ho
    rw [standingsGP, standingsGP, hw, hl, ho]
  · have h := @List.sorted_mergeSort _
      (fun a b => decide (ptsKey b ≤ ptsKey a))
      (fun a b c hab hbc => by
        simp only [decide_eq_true_eq] at *
        exact le_trans hbc hab)
      (fun a b => by
        rcases Int.le_total (ptsKey a) (ptsKey b) with h | h <;> simp [h])
      ts
    rw [sortTeamsByPoints]
    exact h.imp (fun hab => by simpa using hab)

def rowDocC10 : Json :=
  .obj [("teamName", .obj [("default", .str "Toronto Maple Leafs")]),
        ("wins", .num 3), ("otLosses", .num 1), ("gamesPlayed", .num 99),
        ("points", .num 7)]

def rowDocC10b : Json :=
  .obj [("teamName", .obj [("default", .str "Toronto Maple Leafs")]),
        ("wins", .num 3), ("otLosses", .num 1), ("points", .num 7)]

/-- Witness for C10 at a concrete row: losses absent contributes 0, and
dropping the upstream `gamesPlayed` field leaves GP unchanged. -/
theorem standings_gp_and_order_witness :
    standingsGP rowDocC10 = .num (toIntD0 (jsGet rowDocC10 "wins")
      + toIntD0 (jsGet rowDocC10 "losses") + toIntD0 (jsGet rowDocC10 "otLosses")) ∧
    standingsGP rowDocC10 = standingsGP rowDocC10b :=
  ⟨(standings_gp_and_order rowDocC10 rowDocC10 rowDocC10b []).1
     (Or.inr (Or.inr ⟨3, rfl⟩)) (Or.inl rfl) (Or.inr (Or.inr ⟨1, rfl⟩)),
   (standings_gp_and_order rowDocC10 rowDocC10 rowDocC10b []).2.1 rfl rfl rfl⟩
